import Mathlib

/-
Shallow embedding of `hwr/models/model.py` (class `HWRModel`).

The class is a thin orchestration layer over Keras.  The parts of the
repository it imports (`hwr.constants`, `hwr.decoding.ctc_decode`,
`hwr.decoding.trie_beam_search`, `hwr.models.metrics`) and the Keras
framework itself are not part of the source under scrutiny; they are
modelled abstractly:

* the `DECODER` constants become an inductive type (with an `OTHER`
  constructor for any value that is none of the three named ones);
* the decoding functions `best_path`, `beam_search`, `trie_beam_search`
  become fields of a `DecodeFns` record of abstract functions, and each
  invocation is recorded as a `DecoderCall` so that dispatch can be
  stated;
* the Keras prediction model (`predict` / `predict_generator`) becomes a
  `PredModelFns` record, tagged inputs distinguishing `isinstance(x, Sequence)`;
* the Keras model held in `self.model` is modelled by the list of
  framework events (`built`, `compiled`, `weights_loaded`, `weights_saved`)
  applied to it, so compile-after-load ordering can be stated;
* `character_error_rate` becomes an abstract `Metric` value whose `name`
  field stands for the Python `__name__`;
* `os.path.exists` / `os.makedirs` / `datetime.now` become explicit
  parameters (`dir_exists`, the returned `made_dir`, `now`).

Python runtime errors that the control flow of `HWRModel.predict` can
reach (iterating over `None`, indexing an empty candidate list) are made
explicit with `Except PyError`.
-/

set_option autoImplicit false

namespace HWR

/-- The `DECODER` enumeration from `hwr.constants`, plus `OTHER n` standing
for any Python value that is none of the three named constants. -/
inductive DECODER where
  | BEST_PATH
  | VANILLA_BEAM_SEARCH
  | TRIE_BEAM_SEARCH
  | OTHER (n : Nat)
  deriving DecidableEq, Repr

/-- Python runtime errors reachable from `HWRModel.predict`. -/
inductive PyError where
  | typeError
  | indexError
  deriving DecidableEq, Repr

/-- The value `HWRModel.predict` returns: a flat list (when `top == 1`),
a list of per-input candidate lists, or Python `None`. -/
inductive PredOut (π : Type) where
  | flat (l : List π)
  | nested (l : List (List π))
  | noneVal
  deriving DecidableEq, Repr

/-- A record of one invocation of a decoding function, with the arguments
`HWRModel.predict` passes to it. -/
inductive DecoderCall (σ : Type) where
  | best_path (softmaxs : List σ)
  | beam_search (softmaxs : List σ) (beam_width : Nat) (top_paths : Nat)
  | trie_beam_search (softmaxs : List σ) (beam_width : Nat) (top_paths : Nat) (use_lm : Bool)
  deriving DecidableEq, Repr

/-- The decoding functions imported from `hwr.decoding.ctc_decode` and
`hwr.decoding.trie_beam_search`, abstract here (their modules are external
to the file under scrutiny).  `σ` is the type of one per-input softmax
matrix, `π` the type of one predicted text. -/
structure DecodeFns (σ π : Type) where
  best_path : List σ → List π
  beam_search : List σ → Nat → Nat → List (List π)
  trie_beam_search : List σ → Nat → Nat → Bool → List (List π)

/-- An argument to `HWRModel.predict_softmax`, tagged by whether
`isinstance(x, Sequence)` holds for it. -/
inductive PInput (ξ : Type) where
  | sequence (x : ξ)
  | other (x : ξ)
  deriving DecidableEq, Repr

/-- The Keras prediction model returned by `get_pred_model`, abstract:
`predict_generator` and `predict` each turn an input into softmax outputs. -/
structure PredModelFns (ξ σ : Type) where
  predict_generator : ξ → List σ
  predict : ξ → List σ

variable {L O ξ σ π α β V : Type}

/-- `HWRModel.predict_softmax`: `predict_generator` on a Keras `Sequence`,
`predict` otherwise; the result is returned unchanged. -/
def predict_softmax (fw : PredModelFns ξ σ) : PInput ξ → List σ
  | PInput.sequence x => fw.predict_generator x
  | PInput.other x => fw.predict x

/-- The `if/elif` decoder dispatch inside `HWRModel.predict`: the value of
the local `pred` (`none` models Python `None`) together with the decoder
invocations performed. -/
def decodeDispatch (fns : DecodeFns σ π) (d : DECODER) (softmaxs : List σ)
    (top : Nat) : Option (List (List π)) × List (DecoderCall σ) :=
  match d with
  | DECODER.BEST_PATH =>
      (some ((fns.best_path softmaxs).map (fun p => List.replicate top p)),
       [DecoderCall.best_path softmaxs])
  | DECODER.VANILLA_BEAM_SEARCH =>
      (some (fns.beam_search softmaxs 20 top),
       [DecoderCall.beam_search softmaxs 20 top])
  | DECODER.TRIE_BEAM_SEARCH =>
      (some (fns.trie_beam_search softmaxs 20 top true),
       [DecoderCall.trie_beam_search softmaxs 20 top true])
  | DECODER.OTHER _ => (none, [])

/-- The tail of `HWRModel.predict`: `if top == 1: pred = [p[0] for p in pred]`.
Iterating over `None` raises `TypeError`; `p[0]` on an empty list raises
`IndexError`; with `top != 1` the value of `pred` is returned as is. -/
def finishPred (pred : Option (List (List π))) (top : Nat) :
    Except PyError (PredOut π) :=
  if top = 1 then
    match pred with
    | none => Except.error PyError.typeError
    | some l =>
      match l.mapM List.head? with
      | none => Except.error PyError.indexError
      | some fl => Except.ok (PredOut.flat fl)
  else
    match pred with
    | none => Except.ok PredOut.noneVal
    | some l => Except.ok (PredOut.nested l)

/-- The body of `HWRModel.predict` after the decoder default has been
resolved: dispatch, then the `top == 1` flattening. -/
def predictCore (fns : DecodeFns σ π) (d : DECODER) (softmaxs : List σ)
    (top : Nat) : Except PyError (PredOut π) × List (DecoderCall σ) :=
  let pc := decodeDispatch fns d softmaxs top
  (finishPred pc.1 top, pc.2)

/-- An operation the Keras model object held in `self.model` undergoes. -/
inductive KerasEvent (L O : Type) where
  | built
  | compiled (loss : L) (optimizer : O)
  | weights_loaded (path : String)
  | weights_saved (path : String)
  deriving DecidableEq, Repr

/-- What the abstract subclass supplies: `get_loss`, `get_optimizer` and
`type(self).__name__`. -/
structure SubclassConf (L O : Type) where
  loss : L
  optimizer : O
  class_name : String

/-- The attribute state of an `HWRModel` instance.  `log` is the sequence
of framework events applied to the Keras model in `self.model`. -/
structure HWRModel (L O : Type) where
  chars : String
  class_name : String
  ckptdir : String
  char_size : Nat
  decoder : DECODER
  pretrained : Option String
  log : List (KerasEvent L O)
  deriving DecidableEq, Repr

/-- `HWRModel.compile`: compiles `self.model` with the subclass loss and
optimizer. -/
def HWRModel.compile (conf : SubclassConf L O) (s : HWRModel L O) :
    HWRModel L O :=
  { s with log := s.log ++ [KerasEvent.compiled conf.loss conf.optimizer] }

/-- `HWRModel.load_weights`: when `full_path` is false the code runs
`file_name += self.ckptdir` (appending the directory AFTER the name), then
loads the weights and recompiles. -/
def HWRModel.load_weights (s : HWRModel L O) (conf : SubclassConf L O)
    (file_name : String) (full_path : Bool := false) : HWRModel L O :=
  let file_name := if full_path then file_name else file_name ++ s.ckptdir
  let s := { s with log := s.log ++ [KerasEvent.weights_loaded file_name] }
  HWRModel.compile conf s

/-- `HWRModel.__init__`: sets `chars`, `class_name`, `ckptdir`
(`ON.PATH.CKPT_DIR + class_name + "/"`, the constant passed as
`ckpt_dir_const`), `char_size = len(chars) + 1` and `decoder`
(default `DECODER.TRIE_BEAM_SEARCH`); builds the model (`get_model_conf`),
compiles it, and when `preload` is true sets `self.pretrained` to
`PRETRAINED[class_name]` (passed as `pretrained`) and loads those weights
with `full_path=True`. -/
def HWRModel.init (conf : SubclassConf L O) (ckpt_dir_const : String)
    (chars : String) (preload : Bool) (pretrained : String)
    (decoder : DECODER := DECODER.TRIE_BEAM_SEARCH) : HWRModel L O :=
  let s : HWRModel L O :=
    { chars := chars
      class_name := conf.class_name
      ckptdir := ckpt_dir_const ++ conf.class_name ++ "/"
      char_size := chars.length + 1
      decoder := decoder
      pretrained := none
      log := [KerasEvent.built] }
  let s := HWRModel.compile conf s
  if preload then
    let s := { s with pretrained := some pretrained }
    HWRModel.load_weights s conf pretrained true
  else s

/-- `HWRModel.save_weights`: an empty `file_name` defaults to
`get_time() + '.h5'` (`now` models `get_time()`); when `full_path` is false
the code runs `file_name += self.ckptdir`.  Returns the path the weights
are written to, and the unchanged instance. -/
def HWRModel.save_weights (s : HWRModel L O) (now : String)
    (file_name : String := "") (full_path : Bool := false) :
    String × HWRModel L O :=
  let file_name := if file_name = "" then now ++ ".h5" else file_name
  let file_name := if full_path then file_name else file_name ++ s.ckptdir
  (file_name, s)

/-- `HWRModel.predict`: resolves `decoder=None` to `self.decoder`, obtains
the softmaxes from `predict_softmax`, dispatches, and flattens when
`top == 1`.  Returns (result, decoder invocations) and the unchanged
instance. -/
def HWRModel.predict (s : HWRModel L O) (fw : PredModelFns ξ σ)
    (fns : DecodeFns σ π) (x : PInput ξ) (decoder : Option DECODER := none)
    (top : Nat := 1) :
    (Except PyError (PredOut π) × List (DecoderCall σ)) × HWRModel L O :=
  let d := decoder.getD s.decoder
  (predictCore fns d (predict_softmax fw x) top, s)

/-- A metric function such as `character_error_rate`: `name` stands for the
Python `__name__`, `fn` for the function itself (applied to `y_true` and to
whatever `HWRModel.predict` returned). -/
structure Metric (β π V : Type) where
  name : String
  fn : β → PredOut π → V

/-- An evaluation sequence: the underlying Keras `Sequence` payload handed
to `predict`, and the `(x, y)` pair `get_xy` returns. -/
structure EvalSeq (ξ α β : Type) where
  data : ξ
  get_xy : α × β

/-- `HWRModel.evaluate`: `metrics=None` defaults to
`[character_error_rate]` (the abstract `cer`), `decoder=None` defaults to
`self.decoder`; `y_true` is the second component of `eval_seq.get_xy()`,
`y_pred` comes from `self.predict(eval_seq, decoder=decoder)` (so with the
default `top=1`); the result maps each metric name to the metric applied
to `(y_true, y_pred)`, in order.  A Python exception raised by `predict`
propagates. -/
def HWRModel.evaluate (s : HWRModel L O) (fw : PredModelFns ξ σ)
    (fns : DecodeFns σ π) (cer : Metric β π V) (eval_seq : EvalSeq ξ α β)
    (metrics : Option (List (Metric β π V)) := none)
    (decoder : Option DECODER := none) :
    Except PyError (List (String × V)) × HWRModel L O :=
  let ms := metrics.getD [cer]
  let d := decoder.getD s.decoder
  let y_true := eval_seq.get_xy.2
  let ret := Except.map
    (fun y_pred => ms.map (fun m => (m.name, m.fn y_true y_pred)))
    (HWRModel.predict s fw fns (PInput.sequence eval_seq.data) (some d) 1).1.1
  (ret, s)

/-- The `tf.keras.callbacks.ModelCheckpoint` constructed by
`HWRModel.train`, with the arguments it is given. -/
structure ModelCheckpointCB where
  filepath : String
  save_weights_only : Bool
  save_best_only : Bool
  verbose : Nat
  deriving DecidableEq, Repr

/-- The `tf.keras.callbacks.EarlyStopping` constructed by `HWRModel.train`. -/
structure EarlyStoppingCB where
  patience : Nat
  deriving DecidableEq, Repr

/-- A Keras callback passed to `fit_generator`. -/
inductive KCallback where
  | checkpoint (c : ModelCheckpointCB)
  | early_stopping (e : EarlyStoppingCB)
  deriving DecidableEq, Repr

/-- The arguments `HWRModel.train` passes to `self.model.fit_generator`
(the generator payloads themselves are external data). -/
structure FitCall where
  shuffle : Bool
  verbose : Nat
  epochs : Nat
  callbacks : List KCallback
  deriving DecidableEq, Repr

/-- The observable effects of one `HWRModel.train` call. -/
structure TrainEffects where
  made_dir : Option String
  fit : FitCall
  deriving DecidableEq, Repr

/-- `HWRModel.train`: builds `ckptdir = self.ckptdir + get_time() + '/'`
(`now` models `get_time()`), creates it when `os.path.exists` is false
(`dir_exists` models `os.path.exists`), and fits with a `ModelCheckpoint`
saving `weights.h5` in that directory (weights only, best only, verbose 1)
and an `EarlyStopping` with the given patience, shuffling, verbose 1. -/
def HWRModel.train (s : HWRModel L O) (now : String)
    (dir_exists : String → Bool) (epochs : Nat := 100)
    (earlystop : Nat := 5) : TrainEffects × HWRModel L O :=
  let ckptdir := s.ckptdir ++ now ++ "/"
  let cp_callback := KCallback.checkpoint
    { filepath := ckptdir ++ "weights.h5"
      save_weights_only := true
      save_best_only := true
      verbose := 1 }
  let es_callback := KCallback.early_stopping { patience := earlystop }
  ({ made_dir := if dir_exists ckptdir then none else some ckptdir
     fit :=
       { shuffle := true
         verbose := 1
         epochs := epochs
         callbacks := [cp_callback, es_callback] } }, s)

/-- The construction-time attributes C10 is about. -/
def sameAttrs (s t : HWRModel L O) : Prop :=
  t.chars = s.chars ∧ t.char_size = s.char_size ∧ t.ckptdir = s.ckptdir

instance (s t : HWRModel L O) : Decidable (sameAttrs s t) := by
  unfold sameAttrs
  infer_instance

end HWR

namespace HWR

/-- A concrete subclass configuration used to evaluate the model at
concrete inputs. -/
def cConf : SubclassConf Nat Nat :=
  { loss := 0, optimizer := 0, class_name := "HWRModel" }

/-- Concrete Keras prediction functions over `Nat` payloads. -/
def cFw : PredModelFns Nat Nat :=
  { predict_generator := fun n => [n, n + 1], predict := fun n => [n] }

/-- Concrete decoding functions over `Nat` softmaxes and predictions. -/
def cFns : DecodeFns Nat Nat :=
  { best_path := fun sm => sm.map (fun v => v + 1)
    beam_search := fun sm _ tp => sm.map (fun v => List.replicate tp v)
    trie_beam_search := fun sm _ tp _ => sm.map (fun v => List.replicate tp (v + 2)) }

/-- A concrete stand-in for `character_error_rate`. -/
def cCer : Metric Nat Nat Nat :=
  { name := "character_error_rate", fn := fun _ _ => 7 }

/-- A concrete evaluation sequence. -/
def cSeq : EvalSeq Nat Nat Nat :=
  { data := 3, get_xy := (0, 9) }

/-- A concrete constructed instance (no preload, default decoder). -/
def cModel : HWRModel Nat Nat :=
  HWRModel.init cConf "ckpt/" "ab" false "w.h5"

end HWR

namespace HWR

variable {L O ξ σ π α β V : Type}

/-- C1: for every softmax output produced by `predict_softmax`,
`HWRModel.predict` dispatches to exactly one decoder:
`DECODER.BEST_PATH` invokes `best_path` on the softmaxes,
`DECODER.VANILLA_BEAM_SEARCH` invokes `beam_search` with beam width 20 and
`top_paths = top`, and `DECODER.TRIE_BEAM_SEARCH` invokes
`trie_beam_search` with beam width 20, `top_paths = top` and
`use_lm = true`. -/
theorem predict_dispatch_three_decoders (fw : PredModelFns ξ σ)
    (fns : DecodeFns σ π) (s : HWRModel L O) (x : PInput ξ) (top : Nat) :
    (HWRModel.predict (π := π) s fw fns x (some DECODER.BEST_PATH) top).1.2 =
      [DecoderCall.best_path (predict_softmax fw x)] ∧
    (HWRModel.predict (π := π) s fw fns x (some DECODER.VANILLA_BEAM_SEARCH) top).1.2 =
      [DecoderCall.beam_search (predict_softmax fw x) 20 top] ∧
    (HWRModel.predict (π := π) s fw fns x (some DECODER.TRIE_BEAM_SEARCH) top).1.2 =
      [DecoderCall.trie_beam_search (predict_softmax fw x) 20 top true] :=
  ⟨rfl, rfl, rfl⟩

/-- C2 (code bug): with `full_path = False` the code appends the checkpoint
directory AFTER the file name (`file_name += self.ckptdir`), so on an
instance with `ckptdir = "ckpt/HWRModel/"` a save or load of
`"weights.h5"` uses the path `"weights.h5ckpt/HWRModel/"`, not the claimed
`"ckpt/HWRModel/weights.h5"`. -/
theorem weights_path_appends_ckptdir :
    cModel.ckptdir = "ckpt/HWRModel/" ∧
    (cModel.save_weights "2020-01-01-00:00:00" "weights.h5" false).1 =
      "weights.h5ckpt/HWRModel/" ∧
    (cModel.load_weights cConf "weights.h5" false).log =
      cModel.log ++ [KerasEvent.weights_loaded "weights.h5ckpt/HWRModel/",
        KerasEvent.compiled 0 0] ∧
    "weights.h5ckpt/HWRModel/" ≠ "ckpt/HWRModel/" ++ "weights.h5" := by
  refine ⟨rfl, rfl, rfl, ?_⟩
  decide

/-- C3: `HWRModel.evaluate` with `metrics = None` uses
`character_error_rate` as the sole metric, takes `y_true` from
`eval_seq.get_xy()`, takes `y_pred` from `self.predict` on the sequence
with the resolved decoder, and returns the map from the metric name
(`__name__`) to the metric applied to `(y_true, y_pred)`. -/
theorem evaluate_default_metric_cer (fw : PredModelFns ξ σ)
    (fns : DecodeFns σ π) (cer : Metric β π V) (s : HWRModel L O)
    (es : EvalSeq ξ α β) (decOpt : Option DECODER) (yp : PredOut π)
    (hp : (HWRModel.predict s fw fns (PInput.sequence es.data)
        (some (decOpt.getD s.decoder)) 1).1.1 = Except.ok yp) :
    (HWRModel.evaluate s fw fns cer es none decOpt).1 =
      Except.ok [(cer.name, cer.fn es.get_xy.2 yp)] := by
  have h1 : (HWRModel.evaluate s fw fns cer es none decOpt).1 =
      Except.map
        (fun y_pred => [cer].map (fun m => (m.name, m.fn es.get_xy.2 y_pred)))
        (HWRModel.predict s fw fns (PInput.sequence es.data)
          (some (decOpt.getD s.decoder)) 1).1.1 := rfl
  rw [h1, hp]
  rfl

/-- C3 witness: on a fully concrete model, `evaluate` with `metrics = None`
returns the singleton map from the metric name to its value. -/
theorem evaluate_default_metric_cer_witness :
    (HWRModel.predict cModel cFw cFns (PInput.sequence cSeq.data)
        (some ((some DECODER.TRIE_BEAM_SEARCH).getD cModel.decoder)) 1).1.1 =
      Except.ok (PredOut.flat [5, 6]) ∧
    (HWRModel.evaluate cModel cFw cFns cCer cSeq none
        (some DECODER.TRIE_BEAM_SEARCH)).1 =
      Except.ok [("character_error_rate", 7)] :=
  ⟨rfl, evaluate_default_metric_cer cFw cFns cCer cModel cSeq
    (some DECODER.TRIE_BEAM_SEARCH) (PredOut.flat [5, 6]) rfl⟩

/-- C4: whenever the dispatch produced candidate lists (`pred` is not
`None`), `HWRModel.predict` with `top = 1` returns the flat list of first
elements of the per-input candidate lists, with `top ≠ 1` it returns the
candidate lists themselves, and in the `BEST_PATH` case the per-input
candidate list is the single best-path result repeated `top` times. -/
theorem predict_top_shape (fw : PredModelFns ξ σ) (fns : DecodeFns σ π)
    (s : HWRModel L O) (x : PInput ξ) (d : DECODER) (top : Nat)
    (nested : List (List π)) (hs : List π)
    (hn : (decodeDispatch fns d (predict_softmax fw x) top).1 = some nested)
    (hhs : nested.mapM List.head? = some hs) :
    (top = 1 →
      (HWRModel.predict s fw fns x (some d) top).1.1 =
        Except.ok (PredOut.flat hs)) ∧
    (top ≠ 1 →
      (HWRModel.predict s fw fns x (some d) top).1.1 =
        Except.ok (PredOut.nested nested)) ∧
    (d = DECODER.BEST_PATH →
      nested = (fns.best_path (predict_softmax fw x)).map
        (fun p => List.replicate top p)) := by
  refine ⟨?_, ?_, ?_⟩
  · intro ht
    subst ht
    have h1 : (HWRModel.predict s fw fns x (some d) 1).1.1 =
        finishPred (decodeDispatch fns d (predict_softmax fw x) 1).1 1 := rfl
    have h2 : ∀ l : List (List π), finishPred (some l) 1 =
        (match l.mapM List.head? with
         | none => Except.error PyError.indexError
         | some fl => Except.ok (PredOut.flat fl)) := fun _ => rfl
    rw [h1, hn, h2, hhs]
  · intro ht
    simp [HWRModel.predict, predictCore, finishPred, hn, ht]
  · intro hd
    subst hd
    have h3 : some ((fns.best_path (predict_softmax fw x)).map
        (fun p => List.replicate top p)) = some nested := hn
    exact (Option.some.inj h3).symm

/-- C4 witness: with the vanilla beam search at `top = 1` on concrete data,
the per-input candidate lists are `[[5], [6]]` and the result is the flat
list of their first elements. -/
theorem predict_top_shape_witness :
    (decodeDispatch cFns DECODER.VANILLA_BEAM_SEARCH
        (predict_softmax cFw (PInput.sequence 5)) 1).1 = some [[5], [6]] ∧
    ([[5], [6]] : List (List Nat)).mapM List.head? = some [5, 6] ∧
    (HWRModel.predict cModel cFw cFns (PInput.sequence 5)
        (some DECODER.VANILLA_BEAM_SEARCH) 1).1.1 =
      Except.ok (PredOut.flat [5, 6]) :=
  ⟨rfl, rfl,
    (predict_top_shape cFw cFns cModel (PInput.sequence 5)
      DECODER.VANILLA_BEAM_SEARCH 1 [[5], [6]] [5, 6] rfl rfl).1 rfl⟩

/-- C5: a decoder value that is none of the three named constants runs no
decoder (the invocation list is empty) and leaves `pred` as `None`: with
`top = 1` the final list comprehension iterates over `None` and raises
`TypeError`, with `top ≠ 1` the call returns `None` rather than a list of
predictions. -/
theorem predict_unknown_decoder_none (fw : PredModelFns ξ σ)
    (fns : DecodeFns σ π) (s : HWRModel L O) (x : PInput ξ)
    (k top : Nat) :
    (HWRModel.predict (π := π) s fw fns x (some (DECODER.OTHER k)) top).1.2 =
      ([] : List (DecoderCall σ)) ∧
    (HWRModel.predict s fw fns x (some (DECODER.OTHER k)) top).1.1 =
      (if top = 1 then Except.error PyError.typeError
       else Except.ok (PredOut.noneVal (π := π))) := by
  refine ⟨rfl, ?_⟩
  simp only [HWRModel.predict, predictCore, decodeDispatch, finishPred,
    Option.getD_some]

/-- C6: `HWRModel.predict_softmax` calls `predict_generator` exactly when
the input is a Keras `Sequence` and `predict` otherwise, returning the
resulting softmax outputs unchanged. -/
theorem predict_softmax_generator_dispatch (fw : PredModelFns ξ σ) (a : ξ) :
    predict_softmax fw (PInput.sequence a) = fw.predict_generator a ∧
    predict_softmax fw (PInput.other a) = fw.predict a :=
  ⟨rfl, rfl⟩

/-- C7: `HWRModel.train` creates the timestamped subdirectory
`self.ckptdir + get_time() + '/'` exactly when it does not already exist,
and fits with exactly two callbacks: a `ModelCheckpoint` writing
`weights.h5` in that subdirectory with `save_weights_only` and
`save_best_only`, and an `EarlyStopping` whose patience is the `earlystop`
argument. -/
theorem train_two_callbacks (s : HWRModel L O) (now : String)
    (dir_exists : String → Bool) (epochs earlystop : Nat) :
    (HWRModel.train s now dir_exists epochs earlystop).1.made_dir =
      (if dir_exists (s.ckptdir ++ now ++ "/") then none
       else some (s.ckptdir ++ now ++ "/")) ∧
    (HWRModel.train s now dir_exists epochs earlystop).1.fit.callbacks =
      [KCallback.checkpoint
        { filepath := s.ckptdir ++ now ++ "/" ++ "weights.h5"
          save_weights_only := true
          save_best_only := true
          verbose := 1 },
       KCallback.early_stopping { patience := earlystop }] ∧
    (HWRModel.train s now dir_exists epochs earlystop).1.fit.epochs = epochs :=
  ⟨rfl, rfl, rfl⟩

/-- C8: the constructor compiles the model with the subclass loss and
optimizer immediately after building it, and every `load_weights` call
recompiles immediately after the weights are loaded, so the model is
compiled after construction and after every weight load. -/
theorem compile_invariant (conf : SubclassConf L O) (cd chars pre : String)
    (d : DECODER) (s : HWRModel L O) (fn : String) (fp : Bool) :
    (HWRModel.init conf cd chars false pre d).log =
      [KerasEvent.built, KerasEvent.compiled conf.loss conf.optimizer] ∧
    (HWRModel.init conf cd chars true pre d).log =
      [KerasEvent.built, KerasEvent.compiled conf.loss conf.optimizer,
       KerasEvent.weights_loaded pre,
       KerasEvent.compiled conf.loss conf.optimizer] ∧
    (HWRModel.load_weights s conf fn fp).log =
      s.log ++ [KerasEvent.weights_loaded
          (if fp then fn else fn ++ s.ckptdir),
        KerasEvent.compiled conf.loss conf.optimizer] := by
  refine ⟨rfl, rfl, ?_⟩
  simp [HWRModel.load_weights, HWRModel.compile]

/-- C9: with `decoder = None`, both `predict` and `evaluate` use the
decoder configured at construction, whose default is
`DECODER.TRIE_BEAM_SEARCH`; an explicitly passed decoder is used for that
call only, and neither call changes `self.decoder` (the instance state is
returned unchanged). -/
theorem decoder_default_resolution (fw : PredModelFns ξ σ)
    (fns : DecodeFns σ π) (cer : Metric β π V) (s : HWRModel L O)
    (x : PInput ξ) (top : Nat) (es : EvalSeq ξ α β)
    (metrics : Option (List (Metric β π V))) (decOpt : Option DECODER)
    (d : DECODER) (conf : SubclassConf L O) (cd chars pre : String)
    (pl : Bool) :
    HWRModel.predict (π := π) s fw fns x none top =
      HWRModel.predict s fw fns x (some s.decoder) top ∧
    HWRModel.evaluate s fw fns cer es metrics none =
      HWRModel.evaluate s fw fns cer es metrics (some s.decoder) ∧
    HWRModel.predict (π := π) s fw fns x (some d) top =
      (predictCore fns d (predict_softmax fw x) top, s) ∧
    (HWRModel.predict (π := π) s fw fns x decOpt top).2 = s ∧
    (HWRModel.evaluate s fw fns cer es metrics decOpt).2 = s ∧
    (HWRModel.init (L := L) (O := O) conf cd chars pl pre).decoder =
      DECODER.TRIE_BEAM_SEARCH := by
  refine ⟨rfl, rfl, rfl, rfl, rfl, ?_⟩
  cases pl <;>
    simp [HWRModel.init, HWRModel.load_weights, HWRModel.compile]

/-- C10: construction sets `char_size = len(chars) + 1`, and no operation
of the class changes `chars`, `char_size` or `ckptdir` afterwards. -/
theorem attrs_fixed_after_init (conf : SubclassConf L O)
    (cd chars pre : String) (pl fp : Bool) (d : DECODER)
    (s : HWRModel L O) (fw : PredModelFns ξ σ) (fns : DecodeFns σ π)
    (cer : Metric β π V) (x : PInput ξ) (es : EvalSeq ξ α β)
    (metrics : Option (List (Metric β π V))) (decOpt : Option DECODER)
    (top epochs earlystop : Nat) (fn now : String)
    (dir_exists : String → Bool) :
    (HWRModel.init (L := L) (O := O) conf cd chars pl pre d).char_size =
      chars.length + 1 ∧
    (HWRModel.init (L := L) (O := O) conf cd chars pl pre d).chars = chars ∧
    (HWRModel.init (L := L) (O := O) conf cd chars pl pre d).ckptdir =
      cd ++ conf.class_name ++ "/" ∧
    sameAttrs s (HWRModel.compile conf s) ∧
    sameAttrs s (HWRModel.load_weights s conf fn fp) ∧
    sameAttrs s (HWRModel.save_weights s now fn fp).2 ∧
    sameAttrs s (HWRModel.predict (π := π) s fw fns x decOpt top).2 ∧
    sameAttrs s (HWRModel.evaluate s fw fns cer es metrics decOpt).2 ∧
    sameAttrs s (HWRModel.train s now dir_exists epochs earlystop).2 := by
  refine ⟨?_, ?_, ?_, ⟨rfl, rfl, rfl⟩, ?_, ⟨rfl, rfl, rfl⟩, ⟨rfl, rfl, rfl⟩,
    ⟨rfl, rfl, rfl⟩, ⟨rfl, rfl, rfl⟩⟩
  · cases pl <;>
      simp [HWRModel.init, HWRModel.load_weights, HWRModel.compile]
  · cases pl <;>
      simp [HWRModel.init, HWRModel.load_weights, HWRModel.compile]
  · cases pl <;>
      simp [HWRModel.init, HWRModel.load_weights, HWRModel.compile]
  · simp [HWRModel.load_weights, HWRModel.compile, sameAttrs]

end HWR
